import Mathlib

/-!
Verification of the x402 gateway routing subsystem: a shallow embedding of
the peer registry, sticky router, fallback ordering and the verify/settle
forwarding handlers (source: src/gateway/core and the Express/Hono gateway
adapters, which share one algorithm), together with theorems about them.

Embedding conventions:
* wall-clock milliseconds are Nat;
* JavaScript Map objects become insertion-ordered association lists
  (mapGet / mapSet below reproduce Map.get / Map.set);
* string truthiness (falsy exactly on the empty string) is strTruthy;
* toLowerCase is character-wise ASCII lowering (strToLower);
* the nondeterministic Math.random choices are parameters: a chosen index
  for pickRandom and a shuffle function for the fallback reordering;
* network calls are an oracle respOf : peer -> Option response, where
  none models a transport failure (timeout / network error / thrown
  exception in postJson) and some r a well-formed HTTP reply.
-/

-- ─── Constants (source: gateway/core constants block) ───────────────────────

def VERIFY_TIMEOUT : Nat := 10000

def SETTLE_TIMEOUT : Nat := 30000

def SELECTION_TTL_MS : Nat := 60000

def REGISTRY_TTL_MS : Nat := 120000

def CLEANUP_INTERVAL_MS : Nat := 30000

-- ─── Generic helpers ────────────────────────────────────────────────────────

-- JavaScript string truthiness: a string is falsy exactly when it is empty.
def strTruthy (s : Option String) : Option String :=
  match s with
  | some v => if v.isEmpty then none else some v
  | none => none

-- Character-wise model of String.prototype.toLowerCase (ASCII range).
def strToLower (s : String) : String := String.mk (s.toList.map Char.toLower)

-- Model of JavaScript Map.get on an insertion-ordered association list.
def mapGet {α : Type} (m : List (String × α)) (k : String) : Option α :=
  (m.find? (fun p => decide (p.1 = k))).map (fun p => p.2)

-- Model of JavaScript Map.set: update in place if present, else append.
def mapSet {α : Type} (m : List (String × α)) (k : String) (v : α) : List (String × α) :=
  match mapGet m k with
  | some _ => m.map (fun p => if p.1 = k then (k, v) else p)
  | none => m ++ [(k, v)]

-- Model of collecting a JavaScript Set back into an array: first occurrence
-- of each element is kept, in insertion order.
def dedupFirst {α : Type} [DecidableEq α] (l : List α) : List α :=
  l.foldl (fun acc x => if x ∈ acc then acc else acc ++ [x]) []

-- normalizeUrl: url.replace(/\/$/, "") strips a single trailing slash.
def normalizeUrl (url : String) : String :=
  if url.toList.getLast? = some '/' then String.mk url.toList.dropLast else url

-- ─── Data model (source: gateway/types) ─────────────────────────────────────

structure Authorization where
  fromAddr : Option String
deriving DecidableEq

structure InnerPayload where
  authorization : Option Authorization
  transaction : Option String
deriving DecidableEq

-- PartialPaymentPayload: either a structured payload or a legacy bare header.
structure PartialPaymentPayload where
  header : Option String
  payload : Option InnerPayload
deriving DecidableEq

-- PaymentRequirements are pass-through data the gateway never inspects.
abbrev PaymentRequirements := Unit

structure ForwardBody where
  paymentPayload : Option PartialPaymentPayload
  paymentRequirements : Option PaymentRequirements
  paymentHeader : Option String
deriving DecidableEq

-- A verify response body: either a JSON object (with an optional payer
-- field) or a non-object value such as the boolean the facilitator returns.
inductive VerifyResponseBody where
  | obj (payer : Option String) : VerifyResponseBody
  | nonObj : VerifyResponseBody
deriving DecidableEq

structure StickyEntry where
  peer : String
  expiresAt : Nat
deriving DecidableEq

-- A capability descriptor; duplicates are detected by JSON.stringify
-- equality, which for these records is field-for-field equality.
structure SupportedPaymentKind where
  x402Version : Nat
  scheme : String
  network : String
  extra : Option String
deriving DecidableEq

structure RegisteredPeer where
  url : String
  kinds : Option (List SupportedPaymentKind)
  lastSeenMs : Nat
deriving DecidableEq

structure PeerResponse (β : Type) where
  status : Nat
  body : β
deriving DecidableEq

-- ─── Body inspection helpers (source: gateway/core helpers) ─────────────────

def getHeaderFromBody (body : ForwardBody) : Option String :=
  match strTruthy body.paymentHeader with
  | some h => some h
  | none =>
    match strTruthy (body.paymentPayload.bind (fun p => p.header)) with
    | some h => some h
    | none =>
      strTruthy ((body.paymentPayload.bind (fun p => p.payload)).bind (fun p => p.transaction))

def getPayerFromBody (body : ForwardBody) : Option String :=
  ((body.paymentPayload.bind (fun p => p.payload)).bind
    (fun p => p.authorization)).bind (fun a => a.fromAddr)

def getPayerFromVerifyResponse (respBody : VerifyResponseBody) : Option String :=
  match respBody with
  | .obj payer => strTruthy payer
  | .nonObj => none

-- The byPayer key recordSelection writes: verify-response payer preferred,
-- request-body payer as fallback, truthiness-checked, then lowercased.
def recordedPayerKey (body : ForwardBody) (verifyResponseBody : VerifyResponseBody) : Option String :=
  match (match getPayerFromVerifyResponse verifyResponseBody with
         | some p => some p
         | none => getPayerFromBody body) with
  | some p => if p.isEmpty then none else some (strToLower p)
  | none => none

-- The byPayer key getPreferredPeer looks up: body payer lowercased, then
-- truthiness-checked.
def lookupPayerKey (body : ForwardBody) : Option String :=
  strTruthy ((getPayerFromBody body).map strToLower)

-- The byHeader key both recordSelection and getPreferredPeer use.
def headerKeyOfBody (body : ForwardBody) : Option String :=
  strTruthy (getHeaderFromBody body)

def normalizeForwardBody (inbound : ForwardBody) : ForwardBody :=
  match inbound.paymentPayload, inbound.paymentRequirements with
  | some _, some _ => inbound
  | _, _ =>
    match strTruthy inbound.paymentHeader, inbound.paymentRequirements with
    | some h, some req =>
      { paymentPayload := some { header := some h, payload := none },
        paymentRequirements := some req, paymentHeader := none }
    | _, _ => inbound

-- ─── Peer selection (source: pickRandom / pickSelectedPeerForVerify /
--     rotateToNext). The Math.random draw is the index i; the
--     sort(() => Math.random() - 0.5) reshuffle is the shuffle parameter. ───

def pickRandom (arr : List String) (i : Nat) : String := arr.getD i ""

def pickSelectedPeerForVerify (peers : List String) (i : Nat) : String :=
  if peers.length = 1 then peers.getD 0 "" else pickRandom peers i

def rotateToNext (shuffle : List String → List String) (peers : List String)
    (current : String) : List String :=
  if peers.length ≤ 1 then peers
  else current :: shuffle (peers.filter (fun p => decide (p ≠ current)))

-- ─── Sticky router (source: class StickyRouter) ─────────────────────────────

structure RouterState where
  byPayer : List (String × StickyEntry)
  byHeader : List (String × StickyEntry)
deriving DecidableEq

def emptyRouter : RouterState := { byPayer := [], byHeader := [] }

def recordSelection (peer : String) (body : ForwardBody)
    (verifyResponseBody : VerifyResponseBody) (now : Nat) (s : RouterState) : RouterState :=
  let entry : StickyEntry := { peer := peer, expiresAt := now + SELECTION_TTL_MS }
  let s1 := match recordedPayerKey body verifyResponseBody with
    | some k => { s with byPayer := mapSet s.byPayer k entry }
    | none => s
  match headerKeyOfBody body with
  | some k => { s1 with byHeader := mapSet s1.byHeader k entry }
  | none => s1

-- The byHeader half of getPreferredPeer: reached when the byPayer lookup
-- misses or finds only an expired entry.
def headerLookup (s : RouterState) (body : ForwardBody) (now : Nat) : Option String :=
  match (headerKeyOfBody body).bind (fun k => mapGet s.byHeader k) with
  | some e => if e.expiresAt > now then some e.peer else none
  | none => none

def getPreferredPeer (s : RouterState) (body : ForwardBody) (now : Nat) : Option String :=
  match (lookupPayerKey body).bind (fun k => mapGet s.byPayer k) with
  | some e => if e.expiresAt > now then some e.peer else headerLookup s body now
  | none => headerLookup s body now

-- cleanup(): delete every entry with expiresAt <= now.
def stickyCleanup (s : RouterState) (now : Nat) : RouterState :=
  { byPayer := s.byPayer.filter (fun p => decide (now < p.2.expiresAt)),
    byHeader := s.byHeader.filter (fun p => decide (now < p.2.expiresAt)) }

def stickySizePayers (s : RouterState) : Nat := s.byPayer.length

def stickySizeHeaders (s : RouterState) : Nat := s.byHeader.length

-- ─── Peer registry (source: class PeerRegistry) ─────────────────────────────

abbrev RegistryState := List (String × RegisteredPeer)

def emptyRegistry : RegistryState := []

-- register(url, kinds): Map.set keyed by the raw url string.
def register (s : RegistryState) (url : String) (kinds : Option (List SupportedPaymentKind))
    (now : Nat) : RegistryState :=
  mapSet s url { url := url, kinds := kinds, lastSeenMs := now }

-- getActivePeers: a Set seeded with normalized static peers, then every
-- registered peer whose heartbeat age is at most the TTL, normalized.
def getActivePeers (s : RegistryState) (staticPeers : List String) (now : Nat) : List String :=
  dedupFirst (staticPeers.map normalizeUrl ++
    ((s.map (fun p => p.2)).filter
      (fun p => decide (now - p.lastSeenMs ≤ REGISTRY_TTL_MS))).map
      (fun p => normalizeUrl p.url))

-- cleanup(): delete every entry with now - lastSeenMs > TTL.
def registryCleanup (s : RegistryState) (now : Nat) : RegistryState :=
  s.filter (fun p => decide (¬ (now - p.2.lastSeenMs > REGISTRY_TTL_MS)))

def registrySize (s : RegistryState) : Nat := s.length

-- ─── Capability aggregation (source: aggregateSupportedKinds) ───────────────

-- fetchKinds base models fetching normalizeUrl(base) + "/supported" and
-- extracting a well-formed kinds array: none stands for a failed call or a
-- malformed body, which the source catches and turns into [].
def aggregateSupportedKinds (fetchKinds : String → Option (List SupportedPaymentKind))
    (peers : List String) : List SupportedPaymentKind :=
  if peers.isEmpty then []
  else dedupFirst (peers.flatMap (fun base => (fetchKinds base).getD []))

-- ─── Gateway response bodies ────────────────────────────────────────────────

-- upstream b is a verbatim peer body; errorMsg m is the JSON object
-- {error: m}; settleErr m is {success: false, error: m, txHash: null,
-- networkId: null}.
inductive GatewayBody (β : Type) where
  | upstream (b : β) : GatewayBody β
  | errorMsg (msg : String) : GatewayBody β
  | settleErr (msg : String) : GatewayBody β
deriving DecidableEq

-- ─── Verify handler (source: POST /verify in both gateway adapters) ─────────

structure VerifyOutcome where
  status : Nat
  body : GatewayBody VerifyResponseBody
  sticky : RouterState
  called : List String
deriving DecidableEq

def verifyLoop (s : RouterState) (now : Nat) (forwardBody : ForwardBody)
    (respOf : String → Option (PeerResponse VerifyResponseBody)) :
    List String → Option (PeerResponse VerifyResponseBody) → VerifyOutcome
  | [], none => { status := 503, body := .errorMsg "Verification unavailable",
                  sticky := s, called := [] }
  | [], some lastError => { status := lastError.status, body := .upstream lastError.body,
                            sticky := s, called := [] }
  | base :: rest, lastError =>
    match respOf base with
    | none =>
      let o := verifyLoop s now forwardBody respOf rest lastError
      { o with called := base :: o.called }
    | some response =>
      if response.status = 200 then
        { status := 200, body := .upstream response.body,
          sticky := recordSelection base forwardBody response.body now s,
          called := [base] }
      else
        let o := verifyLoop s now forwardBody respOf rest (some response)
        { o with called := base :: o.called }

def verifyHandler (s : RouterState) (now : Nat) (activePeers : List String)
    (inbound : ForwardBody) (i : Nat) (shuffle : List String → List String)
    (respOf : String → Option (PeerResponse VerifyResponseBody)) : VerifyOutcome :=
  if activePeers.isEmpty then
    { status := 503, body := .errorMsg "No peers configured", sticky := s, called := [] }
  else
    let forwardBody := normalizeForwardBody inbound
    let primary := pickSelectedPeerForVerify activePeers i
    let order := rotateToNext shuffle activePeers primary
    verifyLoop s now forwardBody respOf order none

-- ─── Settle handler (source: POST /settle in both gateway adapters) ─────────

structure SettleOutcome (β : Type) where
  status : Nat
  body : GatewayBody β
  called : List String
deriving DecidableEq

def settleLoop {β : Type} (respOf : String → Option (PeerResponse β)) :
    List String → SettleOutcome β
  | [] => { status := 503, body := .settleErr "Settle unavailable", called := [] }
  | peer :: rest =>
    match respOf peer with
    | none =>
      let o := settleLoop respOf rest
      { o with called := peer :: o.called }
    | some response =>
      if response.status = 200 then
        { status := 200, body := .upstream response.body, called := [peer] }
      else
        let o := settleLoop respOf rest
        { o with called := peer :: o.called }

def settleHandler {β : Type} (s : RouterState) (now : Nat) (activePeers : List String)
    (inbound : ForwardBody) (i : Nat) (shuffle : List String → List String)
    (respOf : String → Option (PeerResponse β)) : SettleOutcome β :=
  if activePeers.isEmpty then
    { status := 503, body := .settleErr "No peers configured", called := [] }
  else
    let forwardBody := normalizeForwardBody inbound
    let preferred := (getPreferredPeer s forwardBody now).getD
      (pickSelectedPeerForVerify activePeers i)
    let order := rotateToNext shuffle activePeers preferred
    settleLoop respOf order

-- ─── Helper lemmas: association-list maps ───────────────────────────────────

lemma mapGet_nil {α : Type} (k : String) : mapGet ([] : List (String × α)) k = none := rfl

lemma mapGet_cons {α : Type} (p : String × α) (m : List (String × α)) (k : String) :
    mapGet (p :: m) k = if p.1 = k then some p.2 else mapGet m k := by
  unfold mapGet
  rw [List.find?_cons]
  by_cases h : p.1 = k <;> simp [h]

lemma mapGet_append {α : Type} (m₁ m₂ : List (String × α)) (k : String) :
    mapGet (m₁ ++ m₂) k =
      match mapGet m₁ k with
      | some v => some v
      | none => mapGet m₂ k := by
  induction m₁ with
  | nil => simp [mapGet_nil]
  | cons p tl ih =>
    rw [List.cons_append, mapGet_cons, mapGet_cons]
    by_cases h : p.1 = k
    · simp [h]
    · simpa [h] using ih

lemma mapGet_map_update {α : Type} (m : List (String × α)) (k k' : String) (v : α) :
    mapGet (m.map (fun p => if p.1 = k then (k, v) else p)) k' =
      match mapGet m k' with
      | some w => some (if k' = k then v else w)
      | none => none := by
  induction m with
  | nil => simp [mapGet_nil]
  | cons p tl ih =>
    rw [List.map_cons, mapGet_cons, mapGet_cons]
    by_cases hpk : p.1 = k
    · by_cases hk' : p.1 = k'
      · have hkk : k = k' := hpk.symm.trans hk'
        rw [if_pos hpk]
        simp only [if_pos hkk, if_pos hk']
        simp [hkk.symm]
      · have hkk : ¬ k = k' := fun h => hk' (hpk.trans h)
        rw [if_pos hpk]
        simp only [if_neg hkk, if_neg hk']
        exact ih
    · rw [if_neg hpk]
      by_cases hk' : p.1 = k'
      · have : ¬ k' = k := fun h => hpk (hk'.trans h)
        simp [hk', this]
      · simp only [if_neg hk']
        exact ih

lemma mapGet_mapSet_self {α : Type} (m : List (String × α)) (k : String) (v : α) :
    mapGet (mapSet m k v) k = some v := by
  unfold mapSet
  cases h : mapGet m k with
  | none => rw [mapGet_append, h]; simp [mapGet_cons, mapGet_nil]
  | some w => rw [mapGet_map_update, h]; simp

lemma mapGet_mapSet_ne {α : Type} (m : List (String × α)) (k k' : String) (v : α)
    (hne : k' ≠ k) : mapGet (mapSet m k v) k' = mapGet m k' := by
  unfold mapSet
  cases h : mapGet m k with
  | none =>
    rw [mapGet_append]
    cases h' : mapGet m k' with
    | none =>
      have hkk : ¬ k = k' := fun hh => hne hh.symm
      simp [mapGet_cons, mapGet_nil, hkk]
    | some w => rfl
  | some w =>
    rw [mapGet_map_update]
    cases h' : mapGet m k' with
    | none => rfl
    | some w' => simp [hne]

lemma mapGet_mem {α : Type} {m : List (String × α)} {k : String} {v : α}
    (h : mapGet m k = some v) : (k, v) ∈ m := by
  induction m with
  | nil => simp [mapGet_nil] at h
  | cons p tl ih =>
    rw [mapGet_cons] at h
    by_cases hk : p.1 = k
    · rw [if_pos hk] at h
      injection h with h2
      have hp : p = (k, v) := by
        obtain ⟨a, b⟩ := p
        simp only at hk h2
        rw [hk, h2]
      subst hp
      exact List.mem_cons_self _ _
    · rw [if_neg hk] at h
      exact List.mem_cons_of_mem p (ih h)

lemma length_mapSet_update {α : Type} (m : List (String × α)) (k : String) (v w : α)
    (h : mapGet m k = some w) : (mapSet m k v).length = m.length := by
  unfold mapSet
  rw [h, List.length_map]

lemma length_mapSet_new {α : Type} (m : List (String × α)) (k : String) (v : α)
    (h : mapGet m k = none) : (mapSet m k v).length = m.length + 1 := by
  unfold mapSet
  rw [h, List.length_append]
  rfl

-- ─── Helper lemmas: dedupFirst ──────────────────────────────────────────────

lemma foldl_dedup_mem {α : Type} [DecidableEq α] (l : List α) (acc : List α) (a : α) :
    a ∈ l.foldl (fun acc x => if x ∈ acc then acc else acc ++ [x]) acc ↔ a ∈ acc ∨ a ∈ l := by
  induction l generalizing acc with
  | nil => simp
  | cons x xs ih =>
    rw [List.foldl_cons, ih]
    by_cases hx : x ∈ acc
    · simp only [if_pos hx, List.mem_cons]
      constructor
      · rintro (h | h)
        · exact Or.inl h
        · exact Or.inr (Or.inr h)
      · rintro (h | h | h)
        · exact Or.inl h
        · exact Or.inl (h ▸ hx)
        · exact Or.inr h
    · simp only [if_neg hx, List.mem_append, List.mem_singleton, List.mem_cons]
      tauto

lemma foldl_dedup_nodup {α : Type} [DecidableEq α] (l : List α) (acc : List α)
    (h : acc.Nodup) :
    (l.foldl (fun acc x => if x ∈ acc then acc else acc ++ [x]) acc).Nodup := by
  induction l generalizing acc with
  | nil => simpa
  | cons x xs ih =>
    rw [List.foldl_cons]
    apply ih
    by_cases hx : x ∈ acc
    · simpa [hx]
    · rw [if_neg hx, List.nodup_append]
      refine ⟨h, List.nodup_singleton x, ?_⟩
      intro a ha hax
      rw [List.mem_singleton] at hax
      exact hx (hax ▸ ha)

lemma mem_dedupFirst {α : Type} [DecidableEq α] (l : List α) (a : α) :
    a ∈ dedupFirst l ↔ a ∈ l := by
  unfold dedupFirst
  rw [foldl_dedup_mem]
  simp

lemma nodup_dedupFirst {α : Type} [DecidableEq α] (l : List α) :
    (dedupFirst l).Nodup :=
  foldl_dedup_nodup l [] (List.nodup_nil)

-- ─── Helper lemmas: fallback ordering ───────────────────────────────────────

lemma filter_ne_of_not_mem {l : List String} {a : String} (ha : a ∉ l) :
    l.filter (fun p => decide (p ≠ a)) = l := by
  apply List.filter_eq_self.mpr
  intro b hb
  simp only [decide_eq_true_eq]
  exact fun h => ha (h ▸ hb)

lemma perm_cons_filter_ne {l : List String} {a : String} (hnd : l.Nodup) (ha : a ∈ l) :
    (a :: l.filter (fun p => decide (p ≠ a))).Perm l := by
  induction l with
  | nil => cases ha
  | cons x xs ih =>
    rcases List.mem_cons.mp ha with h | h
    · subst h
      have hx : a ∉ xs := (List.nodup_cons.mp hnd).1
      rw [List.filter_cons, if_neg (by simp), filter_ne_of_not_mem hx]
    · have hxa : x ≠ a := fun he => (List.nodup_cons.mp hnd).1 (he ▸ h)
      rw [List.filter_cons, if_pos (by simp [hxa])]
      have hperm := ih (List.nodup_cons.mp hnd).2 h
      exact List.Perm.trans (List.Perm.swap x a _) (List.Perm.cons x hperm)

-- ─── Helper lemmas: the verify fallback loop ────────────────────────────────

lemma verifyLoop_all_none (s : RouterState) (now : Nat) (fb : ForwardBody)
    (respOf : String → Option (PeerResponse VerifyResponseBody)) :
    ∀ (l : List String) (lastErr : Option (PeerResponse VerifyResponseBody)),
    (∀ q ∈ l, respOf q = none) →
    verifyLoop s now fb respOf l lastErr =
      match lastErr with
      | some le => { status := le.status, body := .upstream le.body, sticky := s, called := l }
      | none => { status := 503, body := .errorMsg "Verification unavailable",
                  sticky := s, called := l } := by
  intro l
  induction l with
  | nil =>
    intro lastErr _
    cases lastErr <;> rfl
  | cons q qs ih =>
    intro lastErr hall
    have hq : respOf q = none := hall q (List.mem_cons_self q qs)
    have hrest : ∀ x ∈ qs, respOf x = none := fun x hx => hall x (List.mem_cons_of_mem q hx)
    simp only [verifyLoop, hq]
    rw [ih lastErr hrest]
    cases lastErr <;> rfl

lemma verifyLoop_first_success (s : RouterState) (now : Nat) (fb : ForwardBody)
    (respOf : String → Option (PeerResponse VerifyResponseBody)) :
    ∀ (pre : List String) (p : String) (post : List String)
      (rp : PeerResponse VerifyResponseBody)
      (lastErr : Option (PeerResponse VerifyResponseBody)),
    (∀ q ∈ pre, respOf q = none ∨ ∃ r, respOf q = some r ∧ r.status ≠ 200) →
    respOf p = some rp → rp.status = 200 →
    verifyLoop s now fb respOf (pre ++ p :: post) lastErr =
      { status := 200, body := .upstream rp.body,
        sticky := recordSelection p fb rp.body now s, called := pre ++ [p] } := by
  intro pre
  induction pre with
  | nil =>
    intro p post rp lastErr _ hp h200
    rw [List.nil_append]
    simp only [verifyLoop, hp]
    rw [if_pos h200]
    rfl
  | cons q qs ih =>
    intro p post rp lastErr hpre hp h200
    have hrest : ∀ x ∈ qs, respOf x = none ∨ ∃ r, respOf x = some r ∧ r.status ≠ 200 :=
      fun x hx => hpre x (List.mem_cons_of_mem q hx)
    rw [List.cons_append]
    rcases hpre q (List.mem_cons_self q qs) with hq | ⟨r, hr, hrs⟩
    · have hstep : verifyLoop s now fb respOf (q :: (qs ++ p :: post)) lastErr =
          { status := (verifyLoop s now fb respOf (qs ++ p :: post) lastErr).status,
            body := (verifyLoop s now fb respOf (qs ++ p :: post) lastErr).body,
            sticky := (verifyLoop s now fb respOf (qs ++ p :: post) lastErr).sticky,
            called := q :: (verifyLoop s now fb respOf (qs ++ p :: post) lastErr).called } := by
        simp only [verifyLoop, hq]
      rw [hstep, ih p post rp lastErr hrest hp h200]
      rfl
    · have hstep : verifyLoop s now fb respOf (q :: (qs ++ p :: post)) lastErr =
          { status := (verifyLoop s now fb respOf (qs ++ p :: post) (some r)).status,
            body := (verifyLoop s now fb respOf (qs ++ p :: post) (some r)).body,
            sticky := (verifyLoop s now fb respOf (qs ++ p :: post) (some r)).sticky,
            called := q :: (verifyLoop s now fb respOf (qs ++ p :: post) (some r)).called } := by
        simp only [verifyLoop, hr]
        rw [if_neg hrs]
      rw [hstep, ih p post rp (some r) hrest hp h200]
      rfl

lemma verifyLoop_propagates_last (s : RouterState) (now : Nat) (fb : ForwardBody)
    (respOf : String → Option (PeerResponse VerifyResponseBody)) :
    ∀ (pre : List String) (p : String) (post : List String)
      (rp : PeerResponse VerifyResponseBody)
      (lastErr : Option (PeerResponse VerifyResponseBody)),
    (∀ q ∈ pre, respOf q = none ∨ ∃ r, respOf q = some r ∧ r.status ≠ 200) →
    respOf p = some rp → rp.status ≠ 200 →
    (∀ q ∈ post, respOf q = none) →
    verifyLoop s now fb respOf (pre ++ p :: post) lastErr =
      { status := rp.status, body := .upstream rp.body,
        sticky := s, called := pre ++ p :: post } := by
  intro pre
  induction pre with
  | nil =>
    intro p post rp lastErr _ hp hns hpost
    rw [List.nil_append]
    have hstep : verifyLoop s now fb respOf (p :: post) lastErr =
        { status := (verifyLoop s now fb respOf post (some rp)).status,
          body := (verifyLoop s now fb respOf post (some rp)).body,
          sticky := (verifyLoop s now fb respOf post (some rp)).sticky,
          called := p :: (verifyLoop s now fb respOf post (some rp)).called } := by
      simp only [verifyLoop, hp]
      rw [if_neg hns]
    rw [hstep, verifyLoop_all_none s now fb respOf post (some rp) hpost]
  | cons q qs ih =>
    intro p post rp lastErr hpre hp hns hpost
    have hrest : ∀ x ∈ qs, respOf x = none ∨ ∃ r, respOf x = some r ∧ r.status ≠ 200 :=
      fun x hx => hpre x (List.mem_cons_of_mem q hx)
    rw [List.cons_append]
    rcases hpre q (List.mem_cons_self q qs) with hq | ⟨r, hr, hrs⟩
    · have hstep : verifyLoop s now fb respOf (q :: (qs ++ p :: post)) lastErr =
          { status := (verifyLoop s now fb respOf (qs ++ p :: post) lastErr).status,
            body := (verifyLoop s now fb respOf (qs ++ p :: post) lastErr).body,
            sticky := (verifyLoop s now fb respOf (qs ++ p :: post) lastErr).sticky,
            called := q :: (verifyLoop s now fb respOf (qs ++ p :: post) lastErr).called } := by
        simp only [verifyLoop, hq]
      rw [hstep, ih p post rp lastErr hrest hp hns hpost]
    · have hstep : verifyLoop s now fb respOf (q :: (qs ++ p :: post)) lastErr =
          { status := (verifyLoop s now fb respOf (qs ++ p :: post) (some r)).status,
            body := (verifyLoop s now fb respOf (qs ++ p :: post) (some r)).body,
            sticky := (verifyLoop s now fb respOf (qs ++ p :: post) (some r)).sticky,
            called := q :: (verifyLoop s now fb respOf (qs ++ p :: post) (some r)).called } := by
        simp only [verifyLoop, hr]
        rw [if_neg hrs]
      rw [hstep, ih p post rp (some r) hrest hp hns hpost]

-- ─── Helper lemmas: the settle fallback loop ────────────────────────────────

lemma settleLoop_all_fail {β : Type} (respOf : String → Option (PeerResponse β)) :
    ∀ (l : List String),
    (∀ q ∈ l, ∀ r, respOf q = some r → r.status ≠ 200) →
    settleLoop respOf l =
      { status := 503, body := .settleErr "Settle unavailable", called := l } := by
  intro l
  induction l with
  | nil => intro _; rfl
  | cons q qs ih =>
    intro hall
    have hrest : ∀ x ∈ qs, ∀ r, respOf x = some r → r.status ≠ 200 :=
      fun x hx => hall x (List.mem_cons_of_mem q hx)
    cases hq : respOf q with
    | none =>
      have hstep : settleLoop respOf (q :: qs) =
          { status := (settleLoop respOf qs).status, body := (settleLoop respOf qs).body,
            called := q :: (settleLoop respOf qs).called } := by
        simp only [settleLoop, hq]
      rw [hstep, ih hrest]
    | some r =>
      have hrs : r.status ≠ 200 := hall q (List.mem_cons_self q qs) r hq
      have hstep : settleLoop respOf (q :: qs) =
          { status := (settleLoop respOf qs).status, body := (settleLoop respOf qs).body,
            called := q :: (settleLoop respOf qs).called } := by
        simp only [settleLoop, hq]
        rw [if_neg hrs]
      rw [hstep, ih hrest]

lemma settleLoop_upstream_source {β : Type} (respOf : String → Option (PeerResponse β)) :
    ∀ (l : List String) (b : β),
    (settleLoop respOf l).body = GatewayBody.upstream b →
    (settleLoop respOf l).status = 200 ∧
      ∃ q ∈ l, ∃ r, respOf q = some r ∧ r.status = 200 ∧ r.body = b := by
  intro l
  induction l with
  | nil =>
    intro b hb
    simp only [settleLoop] at hb
    exact GatewayBody.noConfusion hb
  | cons q qs ih =>
    intro b hb
    cases hq : respOf q with
    | none =>
      have hstep : settleLoop respOf (q :: qs) =
          { status := (settleLoop respOf qs).status, body := (settleLoop respOf qs).body,
            called := q :: (settleLoop respOf qs).called } := by
        simp only [settleLoop, hq]
      rw [hstep] at hb ⊢
      obtain ⟨hst, x, hx, r, hr, hrs, hrb⟩ := ih b hb
      exact ⟨hst, x, List.mem_cons_of_mem q hx, r, hr, hrs, hrb⟩
    | some r =>
      by_cases hrs : r.status = 200
      · have hstep : settleLoop respOf (q :: qs) =
            { status := 200, body := GatewayBody.upstream r.body, called := [q] } := by
          simp only [settleLoop, hq]
          rw [if_pos hrs]
        rw [hstep] at hb ⊢
        injection hb with hbb
        exact ⟨rfl, q, List.mem_cons_self q qs, r, hq, hrs, hbb⟩
      · have hstep : settleLoop respOf (q :: qs) =
          { status := (settleLoop respOf qs).status, body := (settleLoop respOf qs).body,
            called := q :: (settleLoop respOf qs).called } := by
          simp only [settleLoop, hq]
          rw [if_neg hrs]
        rw [hstep] at hb ⊢
        obtain ⟨hst, x, hx, r', hr', hrs', hrb'⟩ := ih b hb
        exact ⟨hst, x, List.mem_cons_of_mem q hx, r', hr', hrs', hrb'⟩

-- ─── Helper lemmas: sticky router ───────────────────────────────────────────

lemma byPayer_recordSelection (peer : String) (body : ForwardBody)
    (resp : VerifyResponseBody) (now : Nat) (s : RouterState) :
    (recordSelection peer body resp now s).byPayer =
      match recordedPayerKey body resp with
      | some k => mapSet s.byPayer k { peer := peer, expiresAt := now + SELECTION_TTL_MS }
      | none => s.byPayer := by
  unfold recordSelection
  cases hk : recordedPayerKey body resp <;> cases hh : headerKeyOfBody body <;> simp [hk, hh]

lemma byHeader_recordSelection (peer : String) (body : ForwardBody)
    (resp : VerifyResponseBody) (now : Nat) (s : RouterState) :
    (recordSelection peer body resp now s).byHeader =
      match headerKeyOfBody body with
      | some k => mapSet s.byHeader k { peer := peer, expiresAt := now + SELECTION_TTL_MS }
      | none => s.byHeader := by
  unfold recordSelection
  cases hk : recordedPayerKey body resp <;> cases hh : headerKeyOfBody body <;> simp [hk, hh]

lemma getPreferredPeer_payer_hit (s : RouterState) (body : ForwardBody) (now : Nat)
    (k : String) (e : StickyEntry) (hk : lookupPayerKey body = some k)
    (he : mapGet s.byPayer k = some e) (hv : now < e.expiresAt) :
    getPreferredPeer s body now = some e.peer := by
  unfold getPreferredPeer
  rw [hk, Option.some_bind, he]
  show (if e.expiresAt > now then some e.peer else headerLookup s body now) = some e.peer
  exact if_pos hv

lemma getPreferredPeer_payer_expired (s : RouterState) (body : ForwardBody) (now : Nat)
    (k : String) (e : StickyEntry) (hk : lookupPayerKey body = some k)
    (he : mapGet s.byPayer k = some e) (hv : e.expiresAt ≤ now) :
    getPreferredPeer s body now = headerLookup s body now := by
  unfold getPreferredPeer
  rw [hk, Option.some_bind, he]
  show (if e.expiresAt > now then some e.peer else headerLookup s body now) =
    headerLookup s body now
  exact if_neg (Nat.not_lt.mpr hv)

lemma getPreferredPeer_payer_miss (s : RouterState) (body : ForwardBody) (now : Nat)
    (h : (lookupPayerKey body).bind (fun k => mapGet s.byPayer k) = none) :
    getPreferredPeer s body now = headerLookup s body now := by
  unfold getPreferredPeer
  rw [h]

lemma headerLookup_hit (s : RouterState) (body : ForwardBody) (now : Nat)
    (k : String) (e : StickyEntry) (hk : headerKeyOfBody body = some k)
    (he : mapGet s.byHeader k = some e) (hv : now < e.expiresAt) :
    headerLookup s body now = some e.peer := by
  unfold headerLookup
  rw [hk, Option.some_bind, he]
  show (if e.expiresAt > now then some e.peer else none) = some e.peer
  exact if_pos hv

lemma headerLookup_none_of_expired (s : RouterState) (body : ForwardBody) (now : Nat)
    (hh : ∀ k e, mapGet s.byHeader k = some e → e.expiresAt ≤ now) :
    headerLookup s body now = none := by
  unfold headerLookup
  cases hb : (headerKeyOfBody body).bind (fun k => mapGet s.byHeader k) with
  | none => rfl
  | some e =>
    obtain ⟨k, hk, hke⟩ := Option.bind_eq_some.mp hb
    show (if e.expiresAt > now then some e.peer else none) = none
    exact if_neg (Nat.not_lt.mpr (hh k e hke))

lemma getPreferredPeer_none_of_expired (s : RouterState) (body : ForwardBody) (now : Nat)
    (hp : ∀ k e, mapGet s.byPayer k = some e → e.expiresAt ≤ now)
    (hh : ∀ k e, mapGet s.byHeader k = some e → e.expiresAt ≤ now) :
    getPreferredPeer s body now = none := by
  unfold getPreferredPeer
  cases hb : (lookupPayerKey body).bind (fun k => mapGet s.byPayer k) with
  | none => exact headerLookup_none_of_expired s body now hh
  | some e =>
    obtain ⟨k, hk, hke⟩ := Option.bind_eq_some.mp hb
    show (if e.expiresAt > now then some e.peer else headerLookup s body now) = none
    rw [if_neg (Nat.not_lt.mpr (hp k e hke))]
    exact headerLookup_none_of_expired s body now hh

lemma getPreferredPeer_some_source (s : RouterState) (body : ForwardBody) (now : Nat)
    (p : String) (h : getPreferredPeer s body now = some p) :
    ∃ k e, ((lookupPayerKey body = some k ∧ mapGet s.byPayer k = some e) ∨
            (headerKeyOfBody body = some k ∧ mapGet s.byHeader k = some e)) ∧
      now < e.expiresAt ∧ e.peer = p := by
  have hheader : headerLookup s body now = some p →
      ∃ k e, (headerKeyOfBody body = some k ∧ mapGet s.byHeader k = some e) ∧
        now < e.expiresAt ∧ e.peer = p := by
    intro hhl
    unfold headerLookup at hhl
    cases hb : (headerKeyOfBody body).bind (fun k => mapGet s.byHeader k) with
    | none => rw [hb] at hhl; exact Option.noConfusion hhl
    | some e =>
      rw [hb] at hhl
      obtain ⟨k, hk, hke⟩ := Option.bind_eq_some.mp hb
      have hhl2 : (if e.expiresAt > now then some e.peer else none) = some p := hhl
      by_cases hv : e.expiresAt > now
      · rw [if_pos hv] at hhl2
        injection hhl2 with hp2
        exact ⟨k, e, ⟨hk, hke⟩, hv, hp2⟩
      · rw [if_neg hv] at hhl2
        exact Option.noConfusion hhl2
  unfold getPreferredPeer at h
  cases hb : (lookupPayerKey body).bind (fun k => mapGet s.byPayer k) with
  | none =>
    rw [hb] at h
    obtain ⟨k, e, hke, hv, hp2⟩ := hheader h
    exact ⟨k, e, Or.inr hke, hv, hp2⟩
  | some e =>
    rw [hb] at h
    obtain ⟨k, hk, hke⟩ := Option.bind_eq_some.mp hb
    have h2 : (if e.expiresAt > now then some e.peer else headerLookup s body now) = some p := h
    by_cases hv : e.expiresAt > now
    · rw [if_pos hv] at h2
      injection h2 with hp2
      exact ⟨k, e, Or.inl ⟨hk, hke⟩, hv, hp2⟩
    · rw [if_neg hv] at h2
      obtain ⟨k2, e2, hke2, hv2, hp2⟩ := hheader h2
      exact ⟨k2, e2, Or.inr hke2, hv2, hp2⟩

-- ─── Helper lemmas: registry and aggregation ────────────────────────────────

lemma nodup_getActivePeers (s : RegistryState) (staticPeers : List String) (now : Nat) :
    (getActivePeers s staticPeers now).Nodup := by
  unfold getActivePeers
  exact nodup_dedupFirst _

lemma mem_getActivePeers (s : RegistryState) (staticPeers : List String) (now : Nat)
    (u : String) :
    u ∈ getActivePeers s staticPeers now ↔
      (∃ p ∈ staticPeers, normalizeUrl p = u) ∨
      (∃ q ∈ s, now - (q : String × RegisteredPeer).2.lastSeenMs ≤ REGISTRY_TTL_MS ∧
        normalizeUrl q.2.url = u) := by
  unfold getActivePeers
  rw [mem_dedupFirst]
  simp only [List.mem_append, List.mem_map, List.mem_filter, decide_eq_true_eq]
  constructor
  · rintro (⟨p, hp, hnorm⟩ | ⟨rp, ⟨⟨q, hq, hq2⟩, hfilt⟩, hnorm⟩)
    · exact Or.inl ⟨p, hp, hnorm⟩
    · subst hq2
      exact Or.inr ⟨q, hq, hfilt, hnorm⟩
  · rintro (⟨p, hp, hnorm⟩ | ⟨q, hq, hfilt, hnorm⟩)
    · exact Or.inl ⟨p, hp, hnorm⟩
    · exact Or.inr ⟨q.2, ⟨⟨q, hq, rfl⟩, hfilt⟩, hnorm⟩

lemma mem_aggregateSupportedKinds (f : String → Option (List SupportedPaymentKind))
    (peers : List String) (k : SupportedPaymentKind) :
    k ∈ aggregateSupportedKinds f peers ↔ ∃ p ∈ peers, ∃ l, f p = some l ∧ k ∈ l := by
  unfold aggregateSupportedKinds
  by_cases hp : peers.isEmpty
  · rw [if_pos hp]
    have hnil : peers = [] := by simpa using hp
    subst hnil
    simp
  · rw [if_neg hp, mem_dedupFirst, List.mem_flatMap]
    constructor
    · rintro ⟨p, hp2, hk⟩
      cases hf : f p with
      | none => rw [hf] at hk; simp at hk
      | some l =>
        rw [hf] at hk
        exact ⟨p, hp2, l, hf, hk⟩
    · rintro ⟨p, hp2, l, hf, hk⟩
      refine ⟨p, hp2, ?_⟩
      rw [hf]
      exact hk

-- ─── Helper lemmas: the two handlers with a non-empty peer set ──────────────

lemma verifyHandler_nonempty (s : RouterState) (now : Nat) (activePeers : List String)
    (inbound : ForwardBody) (i : Nat) (shuffle : List String → List String)
    (respOf : String → Option (PeerResponse VerifyResponseBody))
    (hne : activePeers ≠ []) :
    verifyHandler s now activePeers inbound i shuffle respOf =
      verifyLoop s now (normalizeForwardBody inbound) respOf
        (rotateToNext shuffle activePeers (pickSelectedPeerForVerify activePeers i)) none := by
  unfold verifyHandler
  rw [if_neg (by simpa using hne)]

lemma settleHandler_nonempty {β : Type} (s : RouterState) (now : Nat)
    (activePeers : List String) (inbound : ForwardBody) (i : Nat)
    (shuffle : List String → List String) (respOf : String → Option (PeerResponse β))
    (hne : activePeers ≠ []) :
    settleHandler s now activePeers inbound i shuffle respOf =
      settleLoop respOf (rotateToNext shuffle activePeers
        ((getPreferredPeer s (normalizeForwardBody inbound) now).getD
          (pickSelectedPeerForVerify activePeers i))) := by
  unfold settleHandler
  rw [if_neg (by simpa using hne)]

-- ─── Sample data used by witnesses and counterexamples ──────────────────────

-- A structured EVM-style payload carrying the given payer and no header /
-- transaction fingerprint.
def sampleAuthPayload (payer : String) : PartialPaymentPayload :=
  { header := none,
    payload := some { authorization := some { fromAddr := some payer }, transaction := none } }

-- A body whose payload carries payer 0xAB.
def sampleBody : ForwardBody :=
  { paymentPayload := some (sampleAuthPayload "0xAB"),
    paymentRequirements := some (), paymentHeader := none }

-- The same payer written with different letter case.
def sampleBodyAltCase : ForwardBody :=
  { paymentPayload := some (sampleAuthPayload "0xAb"),
    paymentRequirements := some (), paymentHeader := none }

-- A legacy-style body carrying only a header credential.
def sampleHeaderBody : ForwardBody :=
  { paymentPayload := some { header := some "hdr", payload := none },
    paymentRequirements := some (), paymentHeader := none }

-- ─── Claim theorems ─────────────────────────────────────────────────────────

/-- Claim C1: with a non-empty active peer set, the verify handler walks its
fallback order sequentially; at the first peer whose call returns the
success status it records the sticky selection for that peer, returns that
peer's response body verbatim with status 200, and calls no later peer. -/
theorem verify_first_success_wins (s : RouterState) (now : Nat) (activePeers : List String)
    (inbound : ForwardBody) (i : Nat) (shuffle : List String → List String)
    (respOf : String → Option (PeerResponse VerifyResponseBody))
    (pre : List String) (p : String) (post : List String)
    (rp : PeerResponse VerifyResponseBody)
    (hne : activePeers ≠ [])
    (horder : rotateToNext shuffle activePeers (pickSelectedPeerForVerify activePeers i) =
      pre ++ p :: post)
    (hpre : ∀ q ∈ pre, respOf q = none ∨ ∃ r, respOf q = some r ∧ r.status ≠ 200)
    (hp : respOf p = some rp) (h200 : rp.status = 200) :
    verifyHandler s now activePeers inbound i shuffle respOf =
      { status := 200, body := .upstream rp.body,
        sticky := recordSelection p (normalizeForwardBody inbound) rp.body now s,
        called := pre ++ [p] } := by
  rw [verifyHandler_nonempty s now activePeers inbound i shuffle respOf hne, horder]
  exact verifyLoop_first_success s now (normalizeForwardBody inbound) respOf
    pre p post rp none hpre hp h200

theorem verify_first_success_wins_witness :
    verifyHandler emptyRouter 0 ["a", "b"] sampleBody 0 (fun l => l)
      (fun q => if q = "a" then some ⟨500, .nonObj⟩
                else if q = "b" then some ⟨200, .nonObj⟩ else none) =
      { status := 200, body := .upstream .nonObj,
        sticky := recordSelection "b" (normalizeForwardBody sampleBody) .nonObj 0 emptyRouter,
        called := ["a", "b"] } := by
  have h := verify_first_success_wins emptyRouter 0 ["a", "b"] sampleBody 0 (fun l => l)
    (fun q => if q = "a" then some ⟨500, .nonObj⟩
              else if q = "b" then some ⟨200, .nonObj⟩ else none)
    ["a"] "b" [] ⟨200, .nonObj⟩ (by decide) (by decide)
    (by
      intro q hq
      have hqa : q = "a" := by simpa using hq
      subst hqa
      exact Or.inr ⟨⟨500, .nonObj⟩, by decide, by decide⟩)
    (by decide) rfl
  exact h

/-- Claim C4: verify against an empty active peer set fails immediately with
503 No peers configured and contacts no peer; when no peer succeeds but
some peer answered, the last-seen upstream response's status and body are
returned verbatim; when every call is a transport failure the handler
returns 503 Verification unavailable — transport failures are never the
terminal result. -/
theorem verify_error_propagation (s : RouterState) (now : Nat) (inbound : ForwardBody)
    (i : Nat) (shuffle : List String → List String)
    (respOf : String → Option (PeerResponse VerifyResponseBody)) :
    (verifyHandler s now [] inbound i shuffle respOf =
      { status := 503, body := .errorMsg "No peers configured", sticky := s, called := [] }) ∧
    (∀ activePeers pre p post rp, activePeers ≠ [] →
      rotateToNext shuffle activePeers (pickSelectedPeerForVerify activePeers i) =
        pre ++ p :: post →
      (∀ q ∈ pre, respOf q = none ∨ ∃ r, respOf q = some r ∧ r.status ≠ 200) →
      respOf p = some rp → rp.status ≠ 200 →
      (∀ q ∈ post, respOf q = none) →
      verifyHandler s now activePeers inbound i shuffle respOf =
        { status := rp.status, body := .upstream rp.body, sticky := s,
          called := pre ++ p :: post }) ∧
    (∀ activePeers order, activePeers ≠ [] →
      rotateToNext shuffle activePeers (pickSelectedPeerForVerify activePeers i) = order →
      (∀ q ∈ order, respOf q = none) →
      verifyHandler s now activePeers inbound i shuffle respOf =
        { status := 503, body := .errorMsg "Verification unavailable", sticky := s,
          called := order }) := by
  refine ⟨rfl, ?_, ?_⟩
  · intro activePeers pre p post rp hne horder hpre hp hns hpost
    rw [verifyHandler_nonempty s now activePeers inbound i shuffle respOf hne, horder]
    exact verifyLoop_propagates_last s now (normalizeForwardBody inbound) respOf
      pre p post rp none hpre hp hns hpost
  · intro activePeers order hne horder hall
    rw [verifyHandler_nonempty s now activePeers inbound i shuffle respOf hne, horder]
    exact verifyLoop_all_none s now (normalizeForwardBody inbound) respOf order none hall

theorem verify_error_propagation_witness :
    (verifyHandler emptyRouter 0 [] sampleBody 0 (fun l => l) (fun _ => none) =
      { status := 503, body := .errorMsg "No peers configured", sticky := emptyRouter,
        called := [] }) ∧
    (verifyHandler emptyRouter 0 ["a", "b"] sampleBody 0 (fun l => l)
        (fun q => if q = "a" then some ⟨418, .nonObj⟩ else none) =
      { status := 418, body := .upstream .nonObj, sticky := emptyRouter,
        called := ["a", "b"] }) ∧
    (verifyHandler emptyRouter 0 ["a", "b"] sampleBody 0 (fun l => l) (fun _ => none) =
      { status := 503, body := .errorMsg "Verification unavailable", sticky := emptyRouter,
        called := ["a", "b"] }) := by
  refine ⟨(verify_error_propagation emptyRouter 0 sampleBody 0 (fun l => l) (fun _ => none)).1,
    ?_, ?_⟩
  · have h := (verify_error_propagation emptyRouter 0 sampleBody 0 (fun l => l)
      (fun q => if q = "a" then some ⟨418, .nonObj⟩ else none)).2.1
      ["a", "b"] [] "a" ["b"] ⟨418, .nonObj⟩ (by decide) (by decide)
      (by intro q hq; simp at hq) (by decide) (by decide)
      (by
        intro q hq
        have hqb : q = "b" := by simpa using hq
        subst hqb
        decide)
    exact h
  · have h := (verify_error_propagation emptyRouter 0 sampleBody 0 (fun l => l)
      (fun _ => none)).2.2 ["a", "b"] ["a", "b"] (by decide) (by decide)
      (by intro q hq; rfl)
    exact h

/-- Claim C5: settle with an empty active peer set returns 503 with the
settle-shaped error body No peers configured; when every peer in the
fallback order fails (non-success or transport failure) it returns 503
Settle unavailable in the same shape; an upstream body is only ever
returned when some peer genuinely answered with status 200, so an upstream
non-success settle response is never propagated. -/
theorem settle_error_shape {β : Type} (s : RouterState) (now : Nat) (inbound : ForwardBody)
    (i : Nat) (shuffle : List String → List String)
    (respOf : String → Option (PeerResponse β)) :
    (settleHandler s now [] inbound i shuffle respOf =
      { status := 503, body := .settleErr "No peers configured", called := [] }) ∧
    (∀ activePeers, activePeers ≠ [] →
      (∀ q r, respOf q = some r → r.status ≠ 200) →
      settleHandler s now activePeers inbound i shuffle respOf =
        { status := 503, body := .settleErr "Settle unavailable",
          called := rotateToNext shuffle activePeers
            ((getPreferredPeer s (normalizeForwardBody inbound) now).getD
              (pickSelectedPeerForVerify activePeers i)) }) ∧
    (∀ activePeers b, (settleHandler s now activePeers inbound i shuffle respOf).body =
        GatewayBody.upstream b →
      (settleHandler s now activePeers inbound i shuffle respOf).status = 200 ∧
        ∃ q r, respOf q = some r ∧ r.status = 200 ∧ r.body = b) := by
  refine ⟨rfl, ?_, ?_⟩
  · intro activePeers hne hfail
    rw [settleHandler_nonempty s now activePeers inbound i shuffle respOf hne]
    exact settleLoop_all_fail respOf _ (fun q _ r hr => hfail q r hr)
  · intro activePeers b hb
    by_cases hne : activePeers = []
    · subst hne
      have hrfl : settleHandler s now ([] : List String) inbound i shuffle respOf =
          { status := 503, body := .settleErr "No peers configured", called := [] } := rfl
      rw [hrfl] at hb
      exact GatewayBody.noConfusion hb
    · rw [settleHandler_nonempty s now activePeers inbound i shuffle respOf hne] at hb ⊢
      obtain ⟨hst, q, _, r, hr, hrs, hrb⟩ := settleLoop_upstream_source respOf _ b hb
      exact ⟨hst, q, r, hr, hrs, hrb⟩

theorem settle_error_shape_witness :
    (settleHandler emptyRouter 0 [] sampleBody 0 (fun l => l)
        (fun _ => (none : Option (PeerResponse Nat))) =
      { status := 503, body := .settleErr "No peers configured", called := [] }) ∧
    (settleHandler emptyRouter 0 ["a", "b"] sampleBody 0 (fun l => l)
        (fun _ => (none : Option (PeerResponse Nat))) =
      { status := 503, body := .settleErr "Settle unavailable", called := ["a", "b"] }) ∧
    ((settleHandler emptyRouter 0 ["a", "b"] sampleBody 0 (fun l => l)
        (fun q => if q = "b" then some ⟨200, (7 : Nat)⟩ else none)).status = 200 ∧
      ∃ q r, (fun q => if q = "b" then some (⟨200, (7 : Nat)⟩ : PeerResponse Nat) else none) q =
          some r ∧ r.status = 200 ∧ r.body = 7) := by
  refine ⟨(settle_error_shape emptyRouter 0 sampleBody 0 (fun l => l)
    (fun _ => (none : Option (PeerResponse Nat)))).1, ?_, ?_⟩
  · have h := (settle_error_shape emptyRouter 0 sampleBody 0 (fun l => l)
      (fun _ => (none : Option (PeerResponse Nat)))).2.1 ["a", "b"] (by decide)
      (by intro q r hr; exact Option.noConfusion hr)
    rw [h]
    decide
  · exact (settle_error_shape emptyRouter 0 sampleBody 0 (fun l => l)
      (fun q => if q = "b" then some ⟨200, (7 : Nat)⟩ else none)).2.2 ["a", "b"] 7 (by decide)

/-- Claim C2 counterexample: the settle-side preferred peer is the sticky
peer, which need not belong to the current active peer set; rotateToNext
then emits an order containing that stale URL, so the order is not a
permutation of the active set and contains a URL outside it (shown with
the identity permutation as the reshuffle outcome). -/
theorem rotate_fallback_order_cex :
    "c" ∈ rotateToNext (fun l => l) ["a", "b"] "c" ∧
    "c" ∉ (["a", "b"] : List String) ∧
    ¬ (rotateToNext (fun l => l) ["a", "b"] "c").Perm ["a", "b"] := by
  refine ⟨by decide, by decide, ?_⟩
  intro h
  have := h.length_eq
  simp [rotateToNext] at this

/-- Claim C2 (amended): when the preferred peer belongs to the active peer
set (always the case for verify, whose pick returns a member), the
fallback order is a permutation of the active set headed by the preferred
peer; when a stale sticky preferred peer is outside a multi-peer active
set, the order is the stale peer prepended to a permutation of the whole
active set; and for a singleton active set the order is just that set,
dropping an outside preferred peer entirely. -/
theorem rotate_fallback_order_amended (shuffle : List String → List String)
    (peers : List String) (preferred : String) (i : Nat)
    (hsh : ∀ l, (shuffle l).Perm l) :
    (i < peers.length → pickSelectedPeerForVerify peers i ∈ peers) ∧
    (peers.Nodup → preferred ∈ peers →
      (rotateToNext shuffle peers preferred).Perm peers ∧
      (rotateToNext shuffle peers preferred).head? = some preferred) ∧
    (1 < peers.length → preferred ∉ peers →
      (rotateToNext shuffle peers preferred).head? = some preferred ∧
      (rotateToNext shuffle peers preferred).tail.Perm peers) ∧
    (∀ q, peers = [q] → rotateToNext shuffle peers preferred = [q]) := by
  refine ⟨?_, ?_, ?_, ?_⟩
  · intro hi
    unfold pickSelectedPeerForVerify pickRandom
    by_cases h1 : peers.length = 1
    · rw [if_pos h1]
      have h0 : 0 < peers.length := by omega
      rw [List.getD_eq_getElem peers "" h0]
      exact List.getElem_mem h0
    · rw [if_neg h1]
      rw [List.getD_eq_getElem peers "" hi]
      exact List.getElem_mem hi
  · intro hnd hmem
    unfold rotateToNext
    by_cases hlen : peers.length ≤ 1
    · rw [if_pos hlen]
      refine ⟨List.Perm.refl _, ?_⟩
      have h0 : 0 < peers.length := List.length_pos.mpr (List.ne_nil_of_mem hmem)
      have h1 : peers.length = 1 := by omega
      obtain ⟨a, ha⟩ := List.length_eq_one.mp h1
      subst ha
      have hpa : preferred = a := by simpa using hmem
      subst hpa
      rfl
    · rw [if_neg hlen]
      exact ⟨List.Perm.trans (List.Perm.cons preferred (hsh _)) (perm_cons_filter_ne hnd hmem),
        rfl⟩
  · intro hlen hnmem
    unfold rotateToNext
    rw [if_neg (by omega)]
    refine ⟨rfl, ?_⟩
    show (shuffle (peers.filter (fun p => decide (p ≠ preferred)))).Perm peers
    rw [filter_ne_of_not_mem hnmem]
    exact hsh peers
  · intro q hq
    subst hq
    unfold rotateToNext
    rw [if_pos (by simp)]

theorem rotate_fallback_order_amended_witness :
    pickSelectedPeerForVerify ["a", "b"] 1 ∈ (["a", "b"] : List String) ∧
    (rotateToNext (fun l => l) ["a", "b"] "a").Perm ["a", "b"] ∧
    (rotateToNext (fun l => l) ["a", "b"] "a").head? = some "a" ∧
    (rotateToNext (fun l => l) ["a", "b"] "c").head? = some "c" ∧
    (rotateToNext (fun l => l) ["a", "b"] "c").tail.Perm ["a", "b"] ∧
    rotateToNext (fun l => l) ["b"] "c" = ["b"] := by
  have h := rotate_fallback_order_amended (fun l => l) ["a", "b"] "a" 1
    (fun l => List.Perm.refl l)
  have h2 := rotate_fallback_order_amended (fun l => l) ["a", "b"] "c" 0
    (fun l => List.Perm.refl l)
  have h3 := rotate_fallback_order_amended (fun l => l) ["b"] "c" 0
    (fun l => List.Perm.refl l)
  exact ⟨h.1 (by decide), (h.2.1 (by decide) (by decide)).1, (h.2.1 (by decide) (by decide)).2,
    (h2.2.2.1 (by decide) (by decide)).1, (h2.2.2.1 (by decide) (by decide)).2,
    h3.2.2.2 "b" rfl⟩

-- ─── Claim C3 support ───────────────────────────────────────────────────────

lemma mapGet_singleton {α : Type} (k k' : String) (v : α) :
    mapGet [(k, v)] k' = if k = k' then some v else none := by
  simp [mapGet_cons, mapGet_nil]

-- When every entry in both key spaces names the same peer and is alive,
-- any successful lookup path yields that peer; a live byHeader hit for the
-- queried body guarantees some path succeeds.
lemma getPreferredPeer_all_same (s : RouterState) (body : ForwardBody) (t : Nat)
    (peer : String)
    (hp : ∀ k e, mapGet s.byPayer k = some e → e.peer = peer ∧ t < e.expiresAt)
    (hh : ∃ k e, headerKeyOfBody body = some k ∧ mapGet s.byHeader k = some e ∧
      e.peer = peer ∧ t < e.expiresAt) :
    getPreferredPeer s body t = some peer := by
  unfold getPreferredPeer
  cases hb : (lookupPayerKey body).bind (fun k => mapGet s.byPayer k) with
  | none =>
    obtain ⟨k, e, hk, he, hep, hv⟩ := hh
    rw [headerLookup_hit s body t k e hk he hv, hep]
  | some e =>
    obtain ⟨k, hk, hke⟩ := Option.bind_eq_some.mp hb
    obtain ⟨hep, hv⟩ := hp k e hke
    show (if e.expiresAt > t then some e.peer else headerLookup s body t) = some peer
    rw [if_pos hv, hep]


-- After recording on an empty router, every entry in either key space
-- carries expiry t0 + SELECTION_TTL_MS; at or past that instant every
-- lookup misses.
lemma record_on_empty_expired (peer : String) (body body' : ForwardBody)
    (resp : VerifyResponseBody) (t0 t : Nat) (ht : t0 + SELECTION_TTL_MS ≤ t) :
    getPreferredPeer (recordSelection peer body resp t0 emptyRouter) body' t = none := by
  apply getPreferredPeer_none_of_expired
  · intro k e he
    cases hrk : recordedPayerKey body resp with
    | none =>
      have hbp : (recordSelection peer body resp t0 emptyRouter).byPayer = [] := by
        rw [byPayer_recordSelection, hrk]
        rfl
      rw [hbp, mapGet_nil] at he
      exact Option.noConfusion he
    | some krec =>
      have hbp : (recordSelection peer body resp t0 emptyRouter).byPayer =
          [(krec, { peer := peer, expiresAt := t0 + SELECTION_TTL_MS })] := by
        rw [byPayer_recordSelection, hrk]
        rfl
      rw [hbp, mapGet_singleton] at he
      by_cases hkk : krec = k
      · rw [if_pos hkk] at he
        injection he with he2
        rw [← he2]
        exact ht
      · rw [if_neg hkk] at he
        exact Option.noConfusion he
  · intro k e he
    cases hhk : headerKeyOfBody body with
    | none =>
      have hbh : (recordSelection peer body resp t0 emptyRouter).byHeader = [] := by
        rw [byHeader_recordSelection, hhk]
        rfl
      rw [hbh, mapGet_nil] at he
      exact Option.noConfusion he
    | some krec =>
      have hbh : (recordSelection peer body resp t0 emptyRouter).byHeader =
          [(krec, { peer := peer, expiresAt := t0 + SELECTION_TTL_MS })] := by
        rw [byHeader_recordSelection, hhk]
        rfl
      rw [hbh, mapGet_singleton] at he
      by_cases hkk : krec = k
      · rw [if_pos hkk] at he
        injection he with he2
        rw [← he2]
        exact ht
      · rw [if_neg hkk] at he
        exact Option.noConfusion he

-- After recording on any router, a later lookup whose payer key matches the
-- recorded payer key hits the fresh entry.
lemma record_payer_roundtrip (s : RouterState) (peer : String) (body body' : ForwardBody)
    (resp : VerifyResponseBody) (t0 t : Nat) (k : String)
    (hrk : recordedPayerKey body resp = some k) (hlk : lookupPayerKey body' = some k)
    (ht : t < t0 + SELECTION_TTL_MS) :
    getPreferredPeer (recordSelection peer body resp t0 s) body' t = some peer := by
  have hbp : (recordSelection peer body resp t0 s).byPayer =
      mapSet s.byPayer k { peer := peer, expiresAt := t0 + SELECTION_TTL_MS } := by
    rw [byPayer_recordSelection, hrk]
  exact getPreferredPeer_payer_hit _ body' t k
    { peer := peer, expiresAt := t0 + SELECTION_TTL_MS } hlk
    (by rw [hbp]; exact mapGet_mapSet_self s.byPayer k _) ht

/-- Claim C3: recordSelection followed by getPreferredPeer returns the
recorded peer when the querying body carries the recorded payer key
(case-insensitively, via lowercased keys) or the recorded fingerprint key;
once SELECTION_TTL_MS has elapsed the lookup returns none; the
payer-identity lookup takes precedence over the fingerprint lookup; and
when neither key can be extracted, recordSelection writes nothing and the
state is unchanged. -/
theorem sticky_record_then_get :
    (∀ (s : RouterState) (peer : String) (body body' : ForwardBody)
       (resp : VerifyResponseBody) (t0 t : Nat) (k : String),
      recordedPayerKey body resp = some k → lookupPayerKey body' = some k →
      t0 ≤ t → t < t0 + SELECTION_TTL_MS →
      getPreferredPeer (recordSelection peer body resp t0 s) body' t = some peer) ∧
    (∀ (peer : String) (body body' : ForwardBody) (resp : VerifyResponseBody)
       (t0 t : Nat) (k : String),
      headerKeyOfBody body = some k → headerKeyOfBody body' = some k →
      t0 ≤ t → t < t0 + SELECTION_TTL_MS →
      getPreferredPeer (recordSelection peer body resp t0 emptyRouter) body' t = some peer) ∧
    (∀ (peer : String) (body body' : ForwardBody) (resp : VerifyResponseBody) (t0 t : Nat),
      t0 + SELECTION_TTL_MS ≤ t →
      getPreferredPeer (recordSelection peer body resp t0 emptyRouter) body' t = none) ∧
    (∀ (s : RouterState) (peer : String) (body : ForwardBody) (resp : VerifyResponseBody)
       (t0 : Nat),
      recordedPayerKey body resp = none → headerKeyOfBody body = none →
      recordSelection peer body resp t0 s = s) ∧
    (∀ (s : RouterState) (body : ForwardBody) (t : Nat) (k : String) (e : StickyEntry),
      lookupPayerKey body = some k → mapGet s.byPayer k = some e → t < e.expiresAt →
      getPreferredPeer s body t = some e.peer) := by
  refine ⟨?_, ?_, ?_, ?_, ?_⟩
  · intro s peer body body' resp t0 t k hrk hlk ht0 ht
    exact record_payer_roundtrip s peer body body' resp t0 t k hrk hlk ht
  · intro peer body body' resp t0 t k hhk hhk' ht0 ht
    have hbh : (recordSelection peer body resp t0 emptyRouter).byHeader =
        [(k, { peer := peer, expiresAt := t0 + SELECTION_TTL_MS })] := by
      rw [byHeader_recordSelection, hhk]
      rfl
    apply getPreferredPeer_all_same _ body' t peer
    · intro k' e he
      cases hrk : recordedPayerKey body resp with
      | none =>
        have hbp : (recordSelection peer body resp t0 emptyRouter).byPayer = [] := by
          rw [byPayer_recordSelection, hrk]
          rfl
        rw [hbp, mapGet_nil] at he
        exact Option.noConfusion he
      | some krec =>
        have hbp : (recordSelection peer body resp t0 emptyRouter).byPayer =
            [(krec, { peer := peer, expiresAt := t0 + SELECTION_TTL_MS })] := by
          rw [byPayer_recordSelection, hrk]
          rfl
        rw [hbp, mapGet_singleton] at he
        by_cases hkk : krec = k'
        · rw [if_pos hkk] at he
          injection he with he2
          rw [← he2]
          exact ⟨rfl, ht⟩
        · rw [if_neg hkk] at he
          exact Option.noConfusion he
    · refine ⟨k, { peer := peer, expiresAt := t0 + SELECTION_TTL_MS }, hhk', ?_, rfl, ht⟩
      rw [hbh, mapGet_singleton, if_pos rfl]
  · intro peer body body' resp t0 t ht
    exact record_on_empty_expired peer body body' resp t0 t ht
  · intro s peer body resp t0 hrk hhk
    simp only [recordSelection, hrk, hhk]
  · intro s body t k e hlk he hv
    exact getPreferredPeer_payer_hit s body t k e hlk he hv

theorem sticky_record_then_get_witness :
    getPreferredPeer (recordSelection "p1" sampleBody .nonObj 5 emptyRouter)
      sampleBodyAltCase 10 = some "p1" ∧
    getPreferredPeer (recordSelection "p1" sampleHeaderBody .nonObj 5 emptyRouter)
      sampleHeaderBody 10 = some "p1" ∧
    getPreferredPeer (recordSelection "p1" sampleBody .nonObj 5 emptyRouter)
      sampleBody (5 + SELECTION_TTL_MS) = none ∧
    recordSelection "p1" (⟨none, none, none⟩ : ForwardBody) .nonObj 5 emptyRouter =
      emptyRouter ∧
    getPreferredPeer
      { byPayer := [("0xab", { peer := "pp", expiresAt := 20 })], byHeader := [] }
      sampleBody 10 = some "pp" := by
  refine ⟨?_, ?_, ?_, ?_, ?_⟩
  · exact sticky_record_then_get.1 emptyRouter "p1" sampleBody sampleBodyAltCase .nonObj
      5 10 "0xab" (by decide) (by decide) (by decide) (by decide)
  · exact sticky_record_then_get.2.1 "p1" sampleHeaderBody sampleHeaderBody .nonObj
      5 10 "hdr" (by decide) (by decide) (by decide) (by decide)
  · exact sticky_record_then_get.2.2.1 "p1" sampleBody sampleBody .nonObj
      5 (5 + SELECTION_TTL_MS) (by decide)
  · exact sticky_record_then_get.2.2.2.1 emptyRouter "p1" ⟨none, none, none⟩ .nonObj 5
      (by decide) (by decide)
  · exact sticky_record_then_get.2.2.2.2
      { byPayer := [("0xab", { peer := "pp", expiresAt := 20 })], byHeader := [] }
      sampleBody 10 "0xab" { peer := "pp", expiresAt := 20 } (by decide) (by decide) (by decide)

-- ─── Claim C6 support ───────────────────────────────────────────────────────

lemma getActivePeers_single_registered (url : String)
    (kinds : Option (List SupportedPaymentKind)) (T t : Nat) :
    getActivePeers (register emptyRegistry url kinds T) [] t =
      if t - T ≤ REGISTRY_TTL_MS then [normalizeUrl url] else [] := by
  by_cases h : t - T ≤ REGISTRY_TTL_MS
  · rw [if_pos h]
    have h2 : t ≤ REGISTRY_TTL_MS + T := by omega
    simp [getActivePeers, register, emptyRegistry, mapSet, mapGet, dedupFirst, h2]
  · rw [if_neg h]
    have h2 : ¬ t ≤ REGISTRY_TTL_MS + T := by omega
    simp [getActivePeers, register, emptyRegistry, mapSet, mapGet, dedupFirst, h2]

lemma registryCleanup_single_registered (url : String)
    (kinds : Option (List SupportedPaymentKind)) (T t : Nat) :
    registryCleanup (register emptyRegistry url kinds T) t =
      if t - T ≤ REGISTRY_TTL_MS then register emptyRegistry url kinds T else [] := by
  by_cases h : t - T ≤ REGISTRY_TTL_MS
  · rw [if_pos h]
    have h2 : t ≤ REGISTRY_TTL_MS + T := by omega
    simp [registryCleanup, register, emptyRegistry, mapSet, mapGet, h2]
  · rw [if_neg h]
    have h2 : ¬ t ≤ REGISTRY_TTL_MS + T := by omega
    simp [registryCleanup, register, emptyRegistry, mapSet, mapGet, h2]

/-- Claim C6 counterexample: the registry liveness test is inclusive
(now - lastSeenMs <= REGISTRY_TTL_MS), so a peer registered at time 0 is
still returned by getActivePeers at exactly time REGISTRY_TTL_MS, a query
instant at which the claim says it must no longer be retrievable. -/
theorem ttl_boundary_cex :
    normalizeUrl "http://a" ∈
      getActivePeers (register emptyRegistry "http://a" none 0) [] (0 + REGISTRY_TTL_MS) := by
  decide

/-- Claim C6 (amended): a sticky entry recorded at T is retrievable exactly
on the half-open window [T, T + SELECTION_TTL_MS) and never at or after
its end; a registry entry heartbeated at T is retrievable on the closed
window [T, T + REGISTRY_TTL_MS] — including the right endpoint — and only
strictly after that is it gone, the sweep removing it on the same
schedule. -/
theorem ttl_window_amended :
    (∀ (url : String) (kinds : Option (List SupportedPaymentKind)) (T t : Nat), T ≤ t →
      getActivePeers (register emptyRegistry url kinds T) [] t =
        if t - T ≤ REGISTRY_TTL_MS then [normalizeUrl url] else []) ∧
    (∀ (url : String) (kinds : Option (List SupportedPaymentKind)) (T t : Nat),
      registryCleanup (register emptyRegistry url kinds T) t =
        if t - T ≤ REGISTRY_TTL_MS then register emptyRegistry url kinds T else []) ∧
    (∀ (peer : String) (body body' : ForwardBody) (resp : VerifyResponseBody)
       (T t : Nat) (k : String),
      recordedPayerKey body resp = some k → lookupPayerKey body' = some k →
      T ≤ t → t < T + SELECTION_TTL_MS →
      getPreferredPeer (recordSelection peer body resp T emptyRouter) body' t = some peer) ∧
    (∀ (peer : String) (body body' : ForwardBody) (resp : VerifyResponseBody) (T t : Nat),
      T + SELECTION_TTL_MS ≤ t →
      getPreferredPeer (recordSelection peer body resp T emptyRouter) body' t = none) := by
  refine ⟨?_, ?_, ?_, ?_⟩
  · intro url kinds T t _
    exact getActivePeers_single_registered url kinds T t
  · intro url kinds T t
    exact registryCleanup_single_registered url kinds T t
  · intro peer body body' resp T t k hrk hlk hT ht
    exact record_payer_roundtrip emptyRouter peer body body' resp T t k hrk hlk ht
  · intro peer body body' resp T t ht
    exact record_on_empty_expired peer body body' resp T t ht

theorem ttl_window_amended_witness :
    getActivePeers (register emptyRegistry "http://a" none 0) [] REGISTRY_TTL_MS =
      [normalizeUrl "http://a"] ∧
    getActivePeers (register emptyRegistry "http://a" none 0) [] (REGISTRY_TTL_MS + 1) = [] ∧
    registryCleanup (register emptyRegistry "http://a" none 0) (REGISTRY_TTL_MS + 1) = [] ∧
    getPreferredPeer (recordSelection "p1" sampleBody .nonObj 0 emptyRouter) sampleBody
      (SELECTION_TTL_MS - 1) = some "p1" ∧
    getPreferredPeer (recordSelection "p1" sampleBody .nonObj 0 emptyRouter) sampleBody
      SELECTION_TTL_MS = none := by
  refine ⟨?_, ?_, ?_, ?_, ?_⟩
  · rw [ttl_window_amended.1 "http://a" none 0 REGISTRY_TTL_MS (by decide),
      if_pos (by decide)]
  · rw [ttl_window_amended.1 "http://a" none 0 (REGISTRY_TTL_MS + 1) (by decide),
      if_neg (by decide)]
  · rw [ttl_window_amended.2.1 "http://a" none 0 (REGISTRY_TTL_MS + 1), if_neg (by decide)]
  · exact ttl_window_amended.2.2.1 "p1" sampleBody sampleBody .nonObj 0
      (SELECTION_TTL_MS - 1) "0xab" (by decide) (by decide) (by decide) (by decide)
  · exact ttl_window_amended.2.2.2 "p1" sampleBody sampleBody .nonObj 0 SELECTION_TTL_MS
      (by decide)

-- ─── Claim C7 ───────────────────────────────────────────────────────────────

-- A router state holding a single, already expired payer entry at time 10.
def routerExpired : RouterState :=
  { byPayer := [("0xab", { peer := "pp", expiresAt := 5 })], byHeader := [] }

-- A router state holding a single, still live payer entry at time 10.
def routerLive : RouterState :=
  { byPayer := [("0xab", { peer := "pp", expiresAt := 20 })], byHeader := [] }

/-- Claim C7 counterexample: getPreferredPeer contains no deletion — the
consultation of an expired entry returns none but the entry stays in the
cache, so the router's size still counts it; only the periodic cleanup
sweep removes it. After recording at time 0, a lookup at SELECTION_TTL_MS
misses, yet the payer-map size is still 1, and it drops to 0 only once
cleanup runs. -/
theorem expired_entry_not_removed_cex :
    getPreferredPeer (recordSelection "p1" sampleBody .nonObj 0 emptyRouter) sampleBody
      SELECTION_TTL_MS = none ∧
    stickySizePayers (recordSelection "p1" sampleBody .nonObj 0 emptyRouter) = 1 ∧
    stickySizePayers (stickyCleanup (recordSelection "p1" sampleBody .nonObj 0 emptyRouter)
      SELECTION_TTL_MS) = 0 := by
  refine ⟨by decide, by decide, by decide⟩

/-- Claim C7 (amended): an expired sticky payer entry is read as a miss —
the lookup falls through to the fingerprint keyspace — and an expired
entry's peer is never returned (any returned peer comes from an entry
whose expiry is still in the future); the consultation itself removes
nothing: entries are removed exactly by the cleanup sweep, which keeps an
entry if and only if its expiry is still strictly in the future. -/
theorem expired_entry_miss_amended :
    (∀ (s : RouterState) (body : ForwardBody) (now : Nat) (k : String) (e : StickyEntry),
      lookupPayerKey body = some k → mapGet s.byPayer k = some e → e.expiresAt ≤ now →
      getPreferredPeer s body now = headerLookup s body now) ∧
    (∀ (s : RouterState) (body : ForwardBody) (now : Nat) (p : String),
      getPreferredPeer s body now = some p →
      ∃ k e, ((lookupPayerKey body = some k ∧ mapGet s.byPayer k = some e) ∨
              (headerKeyOfBody body = some k ∧ mapGet s.byHeader k = some e)) ∧
        now < e.expiresAt ∧ e.peer = p) ∧
    (∀ (s : RouterState) (now : Nat) (kv : String × StickyEntry),
      (kv ∈ (stickyCleanup s now).byPayer ↔ kv ∈ s.byPayer ∧ now < kv.2.expiresAt) ∧
      (kv ∈ (stickyCleanup s now).byHeader ↔ kv ∈ s.byHeader ∧ now < kv.2.expiresAt)) := by
  refine ⟨?_, ?_, ?_⟩
  · exact fun s body now k e hk he hexp =>
      getPreferredPeer_payer_expired s body now k e hk he hexp
  · exact fun s body now p h => getPreferredPeer_some_source s body now p h
  · intro s now kv
    constructor
    · unfold stickyCleanup
      simp [List.mem_filter]
    · unfold stickyCleanup
      simp [List.mem_filter]

theorem expired_entry_miss_amended_witness :
    (getPreferredPeer routerExpired sampleBody 10 = headerLookup routerExpired sampleBody 10) ∧
    (∃ k e, ((lookupPayerKey sampleBody = some k ∧ mapGet routerLive.byPayer k = some e) ∨
        (headerKeyOfBody sampleBody = some k ∧ mapGet routerLive.byHeader k = some e)) ∧
      10 < e.expiresAt ∧ e.peer = "pp") ∧
    ((("0xab", ({ peer := "pp", expiresAt := 5 } : StickyEntry)) ∈
        (stickyCleanup routerExpired 10).byPayer) ↔
      (("0xab", ({ peer := "pp", expiresAt := 5 } : StickyEntry)) ∈ routerExpired.byPayer ∧
        10 < 5)) := by
  refine ⟨?_, ?_, ?_⟩
  · exact expired_entry_miss_amended.1 routerExpired sampleBody 10 "0xab"
      { peer := "pp", expiresAt := 5 } (by decide) (by decide) (by decide)
  · exact expired_entry_miss_amended.2.1 routerLive sampleBody 10 "pp" (by decide)
  · exact (expired_entry_miss_amended.2.2 routerExpired 10
      ("0xab", { peer := "pp", expiresAt := 5 })).1

-- ─── Claim C8 ───────────────────────────────────────────────────────────────

/-- Claim C8 counterexample: normalizeUrl strips only a single trailing
slash (replace with the anchored regex), so the static peer http://x//
contributes active URL http://x/ — which still ends in a slash,
contradicting the claimed no-trailing-slash form of every returned URL. -/
theorem active_peers_trailing_slash_cex :
    "http://x/" ∈ getActivePeers emptyRegistry ["http://x//"] 0 ∧
    "http://x/".toList.getLast? = some '/' := by
  refine ⟨by decide, by decide⟩

/-- Claim C8 (amended): getActivePeers returns a duplicate-free list that is
exactly the union of the normalizeUrl images of the static peers and of
the registered peers whose heartbeat age does not exceed the registry TTL
— deduplicated across the two sources; every returned URL is the image of
normalizeUrl, which strips one trailing slash but can leave one when the
original ended in two. -/
theorem active_peers_set_amended (s : RegistryState) (staticPeers : List String) (now : Nat) :
    (getActivePeers s staticPeers now).Nodup ∧
    (∀ u, u ∈ getActivePeers s staticPeers now ↔
      (∃ p ∈ staticPeers, normalizeUrl p = u) ∨
      (∃ q ∈ s, now - (q : String × RegisteredPeer).2.lastSeenMs ≤ REGISTRY_TTL_MS ∧
        normalizeUrl q.2.url = u)) ∧
    (∀ u, u ∈ getActivePeers s staticPeers now → ∃ v, u = normalizeUrl v) := by
  refine ⟨nodup_getActivePeers s staticPeers now, mem_getActivePeers s staticPeers now, ?_⟩
  intro u hu
  rcases (mem_getActivePeers s staticPeers now u).mp hu with ⟨p, _, hnorm⟩ | ⟨q, _, _, hnorm⟩
  · exact ⟨p, hnorm.symm⟩
  · exact ⟨q.2.url, hnorm.symm⟩

theorem active_peers_set_amended_witness :
    (getActivePeers (register emptyRegistry "http://a/" none 0) ["http://a"] 0).Nodup ∧
    ("http://a" ∈ getActivePeers (register emptyRegistry "http://a/" none 0) ["http://a"] 0 ↔
      (∃ p ∈ ["http://a"], normalizeUrl p = "http://a") ∨
      (∃ q ∈ register emptyRegistry "http://a/" none 0,
        (0 : Nat) - (q : String × RegisteredPeer).2.lastSeenMs ≤ REGISTRY_TTL_MS ∧
          normalizeUrl q.2.url = "http://a")) ∧
    (∃ v, "http://a" = normalizeUrl v) := by
  have h := active_peers_set_amended (register emptyRegistry "http://a/" none 0)
    ["http://a"] 0
  exact ⟨h.1, h.2.1 "http://a", h.2.2 "http://a" (by decide)⟩

-- ─── Claim C9 ───────────────────────────────────────────────────────────────

/-- Claim C9 counterexample: register keys its map by the raw URL string,
not the normalized one; registering http://a and then its trailing-slash
variant http://a/ — the same peer under the claim's normalized identity —
creates a second entry, so the registry size grows to 2 instead of
refreshing the existing entry in place. -/
theorem register_identity_cex :
    normalizeUrl "http://a/" = normalizeUrl "http://a" ∧
    registrySize (register (register emptyRegistry "http://a" none 0) "http://a/" none 0) =
      2 := by
  refine ⟨by decide, by decide⟩

/-- Claim C9 (amended): registry identity is the exact URL string:
re-registering the very same string refreshes the entry in place (size
unchanged, lastSeenMs replaced), and the refresh extends liveness — after
re-registering at t1 the normalized URL is active at every t with
t - t1 ≤ REGISTRY_TTL_MS, in particular at T0 + TTL + ε after a refresh at
T0 + TTL - ε; a trailing-slash variant instead creates a distinct entry,
deduplicated only in getActivePeers output. -/
theorem register_refresh_amended (s : RegistryState) (url : String)
    (kinds kinds' : Option (List SupportedPaymentKind)) (t0 t1 t : Nat)
    (staticPeers : List String) :
    (registrySize (register (register s url kinds t0) url kinds' t1) =
      registrySize (register s url kinds t0)) ∧
    (mapGet (register (register s url kinds t0) url kinds' t1) url =
      some { url := url, kinds := kinds', lastSeenMs := t1 }) ∧
    (t - t1 ≤ REGISTRY_TTL_MS →
      normalizeUrl url ∈ getActivePeers (register (register s url kinds t0) url kinds' t1)
        staticPeers t) := by
  refine ⟨?_, ?_, ?_⟩
  · exact length_mapSet_update _ url _ _ (mapGet_mapSet_self s url _)
  · exact mapGet_mapSet_self _ url _
  · intro hT
    exact (mem_getActivePeers _ staticPeers t (normalizeUrl url)).mpr
      (Or.inr ⟨(url, { url := url, kinds := kinds', lastSeenMs := t1 }),
        mapGet_mem (mapGet_mapSet_self _ url _), hT, rfl⟩)

theorem register_refresh_amended_witness :
    registrySize (register (register emptyRegistry "http://a" none 0) "http://a" none
      (REGISTRY_TTL_MS - 1000)) = 1 ∧
    normalizeUrl "http://a" ∈ getActivePeers
      (register (register emptyRegistry "http://a" none 0) "http://a" none
        (REGISTRY_TTL_MS - 1000)) [] (REGISTRY_TTL_MS + 1000) := by
  have h := register_refresh_amended emptyRegistry "http://a" none none 0
    (REGISTRY_TTL_MS - 1000) (REGISTRY_TTL_MS + 1000) []
  refine ⟨?_, h.2.2 (by decide)⟩
  rw [h.1]
  decide

-- ─── Claim C10 ──────────────────────────────────────────────────────────────

def kindX : SupportedPaymentKind :=
  { x402Version := 1, scheme := "exact", network := "base-sepolia", extra := none }

def kindY : SupportedPaymentKind :=
  { x402Version := 1, scheme := "exact", network := "solana-devnet", extra := none }

/-- Claim C10: capability aggregation over no peers returns the empty list;
a failing or malformed peer contributes nothing and never aborts the
merge (all-failing peers give the empty list); a kind appears in the
result exactly when some peer's list contains it; the result carries no
structural duplicates (field-for-field equality); and aggregating a peer
answering with x against one answering with x then y yields exactly x, y. -/
theorem aggregate_kinds_dedup (f : String → Option (List SupportedPaymentKind)) :
    (aggregateSupportedKinds f [] = []) ∧
    (∀ peers, (∀ p ∈ peers, f p = none) → aggregateSupportedKinds f peers = []) ∧
    (∀ peers k, k ∈ aggregateSupportedKinds f peers ↔
      ∃ p ∈ peers, ∃ l, f p = some l ∧ k ∈ l) ∧
    (∀ peers, (aggregateSupportedKinds f peers).Nodup) ∧
    (∀ (x y : SupportedPaymentKind) (fa : String → Option (List SupportedPaymentKind)),
      x ≠ y → fa "A" = some [x] → fa "B" = some [x, y] →
      aggregateSupportedKinds fa ["A", "B"] = [x, y]) := by
  refine ⟨rfl, ?_, ?_, ?_, ?_⟩
  · intro peers hall
    by_cases hp : peers.isEmpty
    · unfold aggregateSupportedKinds
      rw [if_pos hp]
    · unfold aggregateSupportedKinds
      rw [if_neg hp]
      have hflat : peers.flatMap (fun base => (f base).getD []) = [] := by
        rw [List.flatMap_eq_nil_iff]
        intro p hp2
        rw [hall p hp2]
        rfl
      rw [hflat]
      rfl
  · intro peers k
    exact mem_aggregateSupportedKinds f peers k
  · intro peers
    unfold aggregateSupportedKinds
    by_cases hp : peers.isEmpty
    · rw [if_pos hp]
      exact List.nodup_nil
    · rw [if_neg hp]
      exact nodup_dedupFirst _
  · intro x y fa hxy hA hB
    unfold aggregateSupportedKinds
    rw [if_neg (by simp)]
    have hflat : ["A", "B"].flatMap (fun base => (fa base).getD []) = [x, x, y] := by
      simp [hA, hB]
    rw [hflat]
    unfold dedupFirst
    have hyx : ¬ y = x := fun h => hxy h.symm
    simp [List.foldl_cons, List.foldl_nil, hyx]

theorem aggregate_kinds_dedup_witness :
    (aggregateSupportedKinds (fun _ => none) [] = []) ∧
    (aggregateSupportedKinds (fun _ => none) ["A", "B"] = []) ∧
    (kindY ∈ aggregateSupportedKinds
        (fun p => if p = "A" then some [kindX]
                  else if p = "B" then some [kindX, kindY] else none) ["A", "B"] ↔
      ∃ p ∈ ["A", "B"], ∃ l,
        (fun p => if p = "A" then some [kindX]
                  else if p = "B" then some [kindX, kindY] else none) p = some l ∧
          kindY ∈ l) ∧
    (aggregateSupportedKinds
        (fun p => if p = "A" then some [kindX]
                  else if p = "B" then some [kindX, kindY] else none) ["A", "B"]).Nodup ∧
    aggregateSupportedKinds
        (fun p => if p = "A" then some [kindX]
                  else if p = "B" then some [kindX, kindY] else none) ["A", "B"] =
      [kindX, kindY] := by
  have hf := aggregate_kinds_dedup
    (fun p => if p = "A" then some [kindX] else if p = "B" then some [kindX, kindY] else none)
  exact ⟨(aggregate_kinds_dedup (fun _ => none)).1,
    (aggregate_kinds_dedup (fun _ => none)).2.1 ["A", "B"] (fun p _ => rfl),
    hf.2.2.1 ["A", "B"] kindY,
    hf.2.2.2.1 ["A", "B"],
    hf.2.2.2.2 kindX kindY _ (by decide) (by decide) (by decide)⟩
